import Mathlib

/-!
Verification of the leaf-node query engine of the spatial index
(`fastlib/u/nvasil/tree/node_impl.h`): `Node::InitKNeighbors`,
`Node::FindNearest`, `Node::FindAllNearest` and `Node::Print`.

The embedding translates the C++ source into pure Lean functions.
`Precision_t` (a C++ `double`) is modelled as an exact rational together
with a distinguished top element `Prec.pinf` standing for
`numeric_limits<Precision_t>::max()`, the sentinel distance that no
computed finite distance ever exceeds.  `index_t` is modelled as `Nat`.
The flat `kneighbors_` buffer (slot `i*k+j` holding neighbor `j` of local
point `i`) is modelled row-major as a list of per-point rows, row `i`
holding the `k` slots of local point `i`.
-/

/-- `Precision_t` values: a finite rational, or the
`numeric_limits<Precision_t>::max()` sentinel. -/
inductive Prec where
  | fin (q : ℚ)
  | pinf
deriving DecidableEq

namespace Prec

/-- Strict order on `Prec`: the C++ `<` on distances, with the sentinel
strictly above every finite value. -/
def ltB : Prec → Prec → Bool
  | fin a, fin b => decide (a < b)
  | fin _, pinf => true
  | pinf, _ => false

/-- Non-strict order, as the C++ `!(b < a)`. -/
def leB (a b : Prec) : Bool := !(ltB b a)

/-- `min` of two `Prec` values, written the way the source updates the
pruning bound: `if (a > b) a = b`. -/
def minP (a b : Prec) : Prec := if ltB b a then b else a

end Prec

/-- `Point_t`: a coordinate vector aliased from a leaf buffer plus the
point's original dataset id. -/
structure Point where
  coords : List ℚ
  id : ℕ
deriving DecidableEq

/-- Modelled from the spec: the default-constructed `Point_t` used for the
sentinel padding entries (`pair<Precision_t, Point_t> dummy`); its contents
are unspecified in the source snippet. -/
def defaultPoint : Point := ⟨[], 0⟩

/-- A candidate-list entry: `pair<Precision_t, Point_t>`. -/
abbrev Cand := Prec × Point

/-- The sentinel padding entry: distance `numeric_limits::max()`,
default-constructed point. -/
def dummyCand : Cand := (Prec.pinf, defaultPoint)

/-- `NNResult` / `kneighbors_` slot: `{point_id_, nearest_, distance_}`. -/
structure NNResult where
  point_id : ℕ
  nearest : Point
  distance : Prec
deriving DecidableEq

/-- Fallback record for reads of `kneighbors_` slots the buffer does not
actually hold (such reads are out-of-bounds in the C++). -/
def defRec : NNResult := ⟨0, defaultPoint, Prec.pinf⟩

/-- `PointIdDiscriminator_t::AreTheSame` as a boolean predicate on ids. -/
abbrev PointIdDiscriminator := ℕ → ℕ → Bool

/-- Modelled from the spec: `PairComparator`, the strict comparator passed
to `std::sort` in `FindNearest`, is declared outside the snippet; the spec
fixes its semantics as ascending distance with ties broken by ascending
original point id. -/
def ltC (a b : Cand) : Bool :=
  Prec.ltB a.1 b.1 || (decide (a.1 = b.1) && decide (a.2.id < b.2.id))

/-- Non-strict candidate order derived from `ltC`. -/
def leC (a b : Cand) : Bool := !(ltC b a)

/-- Insert into a `leC`-sorted list.  Together with `isortC` this is the
deterministic model of the `std::sort(nearest.begin(), nearest.end(),
PairComparator())` call: any comparison sort produces a `ltC`-sorted
permutation of its input, and we pick the stable one. -/
def insertC (x : Cand) : List Cand → List Cand
  | [] => [x]
  | y :: ys => if leC x y then x :: y :: ys else y :: insertC x ys

/-- Sorting model for the `std::sort` call in the k-NN trim step. -/
def isortC : List Cand → List Cand
  | [] => []
  | x :: xs => insertC x (isortC xs)

/-- A tree vertex (`Node<TYPELIST, diagnostic>`).  `box_` and
`statistics_` are aliased opaque payloads, `left_`/`right_` are the child
links (modelled as handles), `points_` is the flat leaf coordinate buffer
(row-major, `num_of_points × dimension`), `index_` maps local slots to
original dataset ids, `kneighbors_` is the per-point neighbor buffer
(row `i` = the `k` slots of local point `i`). -/
structure Node where
  node_id : ℕ
  num_of_points : ℕ
  box : List (ℚ × ℚ)
  statistics : List ℚ
  min_dist_so_far : Prec
  left : Option ℕ
  right : Option ℕ
  points : List ℚ
  index : List ℕ
  kneighbors : List (List NNResult)
deriving DecidableEq

namespace Node

/-- Modelled from the spec: `IsLeaf()` is declared outside the snippet; a
node is a leaf iff it has no children. -/
def IsLeaf (n : Node) : Bool := n.left.isNone

end Node

/-- The coordinate slice of local point `i` of a leaf:
`points_.get() + i*dimension`, `dimension` entries. -/
def pointAt (nd : Node) (dim i : ℕ) : List ℚ := (nd.points.drop (i * dim)).take dim

/-- Local point `i` of a leaf as a `Point_t`:
`point.Alias(points_.get()+i*dimension, index_[i])`. -/
def queryPointAt (nd : Node) (dim i : ℕ) : Point :=
  ⟨pointAt nd dim i, nd.index.getD i 0⟩

/-- Modelled from the spec: `BoundingBox_t::Distance(query_point, p,
dimension)` (point-to-point) is implemented outside the snippet; the spec
fixes the default metric as squared Euclidean distance over the first
`dimension` coordinates. -/
def sqDistD (dim : ℕ) (a b : List ℚ) : ℚ :=
  (List.range dim).foldl
    (fun s j => s + (a.getD j 0 - b.getD j 0) * (a.getD j 0 - b.getD j 0)) 0

/-- The scan loop of `FindNearest` in k-NN mode: for each local point, skip
it when the discriminator identifies it with the query point, otherwise
emit `(distance, point)`.  (The k-NN instantiation pushes every
non-excluded point.) -/
def scanLeaf (discr : PointIdDiscriminator) (nd : Node) (dim : ℕ) (q : Point) :
    List Cand :=
  (List.range nd.num_of_points).filterMap fun i =>
    if discr (nd.index.getD i 0) q.id then none
    else some (Prec.fin (sqDistD dim q.coords (pointAt nd dim i)),
               Point.mk (pointAt nd dim i) (nd.index.getD i 0))

/-- The scan loop of `FindNearest` in range mode: additionally keep only
points with `dist <= range`. -/
def scanLeafRange (discr : PointIdDiscriminator) (nd : Node) (dim : ℕ) (q : Point)
    (r : ℚ) : List Cand :=
  (List.range nd.num_of_points).filterMap fun i =>
    if discr (nd.index.getD i 0) q.id then none
    else if sqDistD dim q.coords (pointAt nd dim i) ≤ r then
      some (Prec.fin (sqDistD dim q.coords (pointAt nd dim i)),
            Point.mk (pointAt nd dim i) (nd.index.getD i 0))
    else none

/-- `Node::FindNearest`, k-NN instantiation (`NEIGHBORTYPE` integral):
append every non-excluded leaf point to the candidate list, sort the whole
list with `PairComparator`, then `erase(begin()+k, end())` when more than
`k` candidates are present, else pad with sentinel entries of distance
`numeric_limits::max()` up to length `k`. -/
def findNearestKnn (discr : PointIdDiscriminator) (q : Point) (nearest : List Cand)
    (k dim : ℕ) (nd : Node) : List Cand :=
  let all := nearest ++ scanLeaf discr nd dim q
  let sorted := isortC all
  if all.length > k then sorted.take k
  else sorted ++ List.replicate (k - all.length) dummyCand

/-- `Node::FindNearest`, range instantiation (`NEIGHBORTYPE` a float):
append every non-excluded leaf point within the radius; no trimming. -/
def findNearestRange (discr : PointIdDiscriminator) (q : Point) (nearest : List Cand)
    (r : ℚ) (dim : ℕ) (nd : Node) : List Cand :=
  nearest ++ scanLeafRange discr nd dim q r

/-- The trim boundary of the k-NN branch of `FindNearest` is the iterator
obtained by advancing `k` times from `nearest.begin()` after the append
loop; the advance stays inside the (closed) valid iterator range of the
vector exactly when `k` does not exceed the list's length. -/
def findNearestTrimInBounds (discr : PointIdDiscriminator) (q : Point)
    (nearest : List Cand) (k dim : ℕ) (nd : Node) : Prop :=
  k ≤ (nearest ++ scanLeaf discr nd dim q).length

instance (discr : PointIdDiscriminator) (q : Point) (nearest : List Cand)
    (k dim : ℕ) (nd : Node) :
    Decidable (findNearestTrimInBounds discr q nearest k dim nd) := by
  unfold findNearestTrimInBounds; infer_instance

/-- Indexed map starting at index `j`: the shape of the C++ `for` loops
that assign to buffer slot `j` while walking a row. -/
def mapIdxFrom (f : ℕ → α → α) : ℕ → List α → List α
  | _, [] => []
  | j, x :: xs => f j x :: mapIdxFrom f (j + 1) xs

/-- `Node::InitKNeighbors(knns)`: for every local point `i` and every slot
`j < knns`, set `kneighbors_[i*knns+j].point_id_ = index_[i]`.  The method
performs no allocation: the constructor sets `kneighbors_ = NULL` and no
statement of the method resizes the buffer, so writes land only where the
buffer already has slots. -/
def initKNeighbors (nd : Node) (knns : ℕ) : Node :=
  { nd with kneighbors :=
      mapIdxFrom (fun i row =>
        if i < nd.num_of_points then
          mapIdxFrom (fun j r =>
            if j < knns then { r with point_id := nd.index.getD i 0 } else r) 0 row
        else row) 0 nd.kneighbors }

/-- The k-NN seed of `FindAllNearest` for one query point:
`temp[j] = (kneighbors_[i*range+j].distance_, kneighbors_[i*range+j].nearest_)`
for `j < k`, out of the point's buffer row. -/
def seedRow (row : List NNResult) (k : ℕ) : List Cand :=
  (List.range k).map fun j => ((row.getD j defRec).distance, (row.getD j defRec).nearest)

/-- The k-NN write-back of `FindAllNearest` for one query point:
`kneighbors_[i*range+j].distance_ = temp[j].first;`
`kneighbors_[i*range+j].nearest_  = temp[j].second;` for `j < k`;
the slot's `point_id_` field is left as it was. -/
def writeRow (k : ℕ) (temp : List Cand) (row : List NNResult) : List NNResult :=
  mapIdxFrom (fun j r =>
    if j < k then { r with distance := (temp.getD j dummyCand).1,
                           nearest := (temp.getD j dummyCand).2 } else r) 0 row

/-- One iteration of the k-NN loop of `FindAllNearest`: seed from the query
point's buffer row, merge with this leaf via `FindNearest`, write back, and
fold the trimmed list's last distance (`temp.back().first`) into the
running `max_local_distance`. -/
def fanStep (discr : PointIdDiscriminator) (self qnode : Node) (k dim : ℕ)
    (acc : List (List NNResult) × Prec) (i : ℕ) : List (List NNResult) × Prec :=
  let row := acc.1.getD i []
  let temp := findNearestKnn discr (queryPointAt qnode dim i) (seedRow row k) k dim self
  (acc.1.set i (writeRow k temp row),
   if Prec.ltB acc.2 (temp.getLastD dummyCand).1 then (temp.getLastD dummyCand).1
   else acc.2)

/-- `Node::FindAllNearest`, k-NN instantiation: run `fanStep` over every
point of the query node (`max_local_distance` starting at `0`), then lower
the incoming pruning bound to the running maximum when the latter is
smaller (`if (max_neighbor_distance > max_local_distance)
max_neighbor_distance = max_local_distance`).  Returns the query node as
the call leaves it together with the updated bound.  (The local variable
`distance` read from the buffer at the top of the loop is dead in the
source and is not modelled.) -/
def findAllNearestKnn (discr : PointIdDiscriminator) (self qnode : Node)
    (bound : Prec) (k dim : ℕ) : Node × Prec :=
  let res := (List.range qnode.num_of_points).foldl
    (fanStep discr self qnode k dim) (qnode.kneighbors, Prec.fin 0)
  ({ qnode with kneighbors := res.1 }, Prec.minP bound res.2)

/-- Modelled from the spec: the Result Sink (`fwrite` on `range_nn_fp_`)
and `FATAL` are outside the snippet.  `sink m` is `none` when the `m`-th
append succeeds and `some cause` (the `strerror(errno)` text) when it
fails; per the spec a failed append is fatal for the in-flight query: the
record is not retried and nothing further is written.  `emitAll` writes a
run of records starting at sink position `pos` and returns the records
actually written, the fatal message if any, and the next sink position. -/
def emitAll (sink : ℕ → Option String) :
    List NNResult → ℕ → List NNResult × Option String × ℕ
  | [], pos => ([], none, pos)
  | r :: rest, pos =>
    match sink pos with
    | none =>
      let out := emitAll sink rest (pos + 1)
      (r :: out.1, out.2.1, out.2.2)
    | some cause =>
      ([], some ("Error while writing range nearest neighbors: " ++ cause), pos)

/-- The `NNResult` records produced for query point `i` in the range branch
of `FindAllNearest`: `result.point_id_ = query_node->index_[i]`,
`result.nearest_` and `result.distance_` from the `FindNearest` output
(whose candidate list starts empty: `temp.clear()`). -/
def rangeRecords (discr : PointIdDiscriminator) (self qnode : Node) (r : ℚ)
    (dim i : ℕ) : List NNResult :=
  (findNearestRange discr (queryPointAt qnode dim i) [] r dim self).map
    fun c => ⟨qnode.index.getD i 0, c.2, c.1⟩

/-- `Node::FindAllNearest`, range instantiation: for every query point
stream its qualifying records to the sink, aborting at the first failed
append; finally `max_neighbor_distance = range`.  Returns the records
written, the fatal message if any, and the returned bound. -/
def findAllNearestRange (discr : PointIdDiscriminator) (self qnode : Node)
    (r : ℚ) (dim : ℕ) (sink : ℕ → Option String) :
    List NNResult × Option String × Prec :=
  let out := (List.range qnode.num_of_points).foldl
    (fun acc i =>
      match acc.2.1 with
      | some e => (acc.1, some e, acc.2.2)
      | none =>
        let o := emitAll sink (rangeRecords discr self qnode r dim i) acc.2.2
        (acc.1 ++ o.1, o.2.1, o.2.2))
    ([], none, 0)
  (out.1, out.2.1, Prec.fin r)

/-- Modelled from the spec: `BoundingBox_t::Print(dimension)` is
implemented outside the snippet; a debug rendering of the box extents. -/
def boxPrint (box : List (ℚ × ℚ)) (dim : ℕ) : String :=
  (box.take dim).foldl
    (fun s e => s ++ toString e.1 ++ " " ++ toString e.2 ++ "\n") ""

/-- One point line of `Node::Print`: the coordinates followed by
`-<original id>`. -/
def printPointLine (nd : Node) (dim i : ℕ) : String :=
  ((pointAt nd dim i).foldl (fun s c => s ++ toString c ++ " ") "")
    ++ "-" ++ toString (nd.index.getD i 0) ++ " \n"

/-- The text built by `Node::Print(dimension)`: header (`Node:`/`Leaf:`
with the node id), the box rendering, the point count, and for a leaf one
line per point. -/
def nodePrintStr (nd : Node) (dim : ℕ) : String :=
  (if !nd.IsLeaf then "Node: " ++ toString nd.node_id ++ "\n"
   else "Leaf: " ++ toString nd.node_id ++ "\n")
  ++ boxPrint nd.box dim
  ++ "num_of_points: " ++ toString nd.num_of_points ++ "\n"
  ++ (if nd.IsLeaf then
        (List.range nd.num_of_points).foldl (fun s i => s ++ printPointLine nd dim i) ""
      else "")

/-- `Node::Print` in state-passing form: the string produced together with
the node as the method leaves it (every statement of the method only reads
fields and appends to a local string). -/
def printS (nd : Node) (dim : ℕ) : String × Node := (nodePrintStr nd dim, nd)

/-- Spec-side brute force k-NN, from the spec's words: sort the
non-excluded leaf candidates ascending by distance with ties broken by
ascending original point id, keep the `k` smallest, and pad to length `k`
with sentinel entries of distance `+infinity`. -/
def bruteForceKnn (discr : PointIdDiscriminator) (q : Point) (k dim : ℕ)
    (nd : Node) : List Cand :=
  let cands := scanLeaf discr nd dim q
  (isortC cands).take k ++ List.replicate (k - cands.length) dummyCand

/-- Spec-side brute force range query, from the spec's words: exactly the
non-excluded leaf points whose distance to the query point is `≤ r`. -/
def bruteForceRange (discr : PointIdDiscriminator) (q : Point) (r : ℚ)
    (dim : ℕ) (nd : Node) : List Cand :=
  (scanLeaf discr nd dim q).filter fun c => Prec.leB c.1 (Prec.fin r)

/-- Spec-side emission list for a range `FindAllNearest`: for each of the
query node's points, one record per qualifying neighbor. -/
def bruteAllRange (discr : PointIdDiscriminator) (self qnode : Node) (r : ℚ)
    (dim : ℕ) : List NNResult :=
  ((List.range qnode.num_of_points).map fun i =>
    (bruteForceRange discr (queryPointAt qnode dim i) r dim self).map
      fun c => NNResult.mk (qnode.index.getD i 0) c.2 c.1).flatten

/-- The trimmed candidate list `FindAllNearest` computes for query point
`i` of the query node: seed from the point's current buffer row, merge with
this leaf via `FindNearest`. -/
def fanTemp (discr : PointIdDiscriminator) (self qnode : Node) (k dim i : ℕ) :
    List Cand :=
  findNearestKnn discr (queryPointAt qnode dim i)
    (seedRow (qnode.kneighbors.getD i []) k) k dim self

/-- The buffer row `FindAllNearest` writes back for query point `i`. -/
def fanRowOut (discr : PointIdDiscriminator) (self qnode : Node) (k dim i : ℕ) :
    List NNResult :=
  writeRow k (fanTemp discr self qnode k dim i) (qnode.kneighbors.getD i [])

/-- The k-th smallest recorded distance for query point `i`
(`temp.back().first`). -/
def fanKthDist (discr : PointIdDiscriminator) (self qnode : Node) (k dim i : ℕ) :
    Prec :=
  ((fanTemp discr self qnode k dim i).getLastD dummyCand).1

/-- `max_local_distance` after the first `m` query points: the running
worst of the k-th smallest recorded distances. -/
def fanMaxUpTo (discr : PointIdDiscriminator) (self qnode : Node) (k dim m : ℕ) :
    Prec :=
  (List.range m).foldl
    (fun acc i =>
      if Prec.ltB acc (fanKthDist discr self qnode k dim i) then
        fanKthDist discr self qnode k dim i
      else acc) (Prec.fin 0)

/-- The k-NN `FindAllNearest` loop after the first `m` query points. -/
def fanLoop (discr : PointIdDiscriminator) (self qnode : Node) (k dim m : ℕ) :
    List (List NNResult) × Prec :=
  (List.range m).foldl (fanStep discr self qnode k dim)
    (qnode.kneighbors, Prec.fin 0)

/-! ### Concrete fixtures -/

/-- The default discriminator: ids are the same iff they are equal. -/
def eqD : PointIdDiscriminator := fun a b => a == b

/-- The concrete scenario of the spec: four points `(0,0)`, `(1,0)`,
`(0,1)`, `(5,5)` with ids `0..3` in one leaf. -/
def nd4 : Node :=
  { node_id := 0, num_of_points := 4, box := [], statistics := [],
    min_dist_so_far := Prec.pinf, left := none, right := none,
    points := [0, 0, 1, 0, 0, 1, 5, 5], index := [0, 1, 2, 3], kneighbors := [] }

/-- Query point `(0,0)` with id `0`. -/
def q0 : Point := ⟨[0, 0], 0⟩

/-- A one-point leaf whose single point has id `5` (and no allocated
neighbor buffer). -/
def nd1 : Node :=
  { node_id := 1, num_of_points := 1, box := [], statistics := [],
    min_dist_so_far := Prec.pinf, left := none, right := none,
    points := [3], index := [5], kneighbors := [] }

/-- Query point with id `5`, matching `nd1`'s only point's id. -/
def q5 : Point := ⟨[0], 5⟩

/-- A seeded candidate list already carrying a record whose neighbor id
equals the query id `5`. -/
def seedBad : List Cand := [(Prec.fin 0, ⟨[0], 5⟩)]

/-- A fresh two-slot buffer row (both slots at the fallback record). -/
def row0 : List NNResult := [defRec, defRec]

/-- A two-point leaf (coordinates `0` and `1`, ids `0` and `1`) with a
two-slot neighbor row per point, used for self all-nearest-neighbor
queries. -/
def nd2 : Node :=
  { node_id := 2, num_of_points := 2, box := [], statistics := [],
    min_dist_so_far := Prec.pinf, left := none, right := none,
    points := [0, 1], index := [0, 1], kneighbors := [row0, row0] }

/-- The same two-point leaf with one-slot rows, for `k = 1` queries. -/
def nd2a : Node :=
  { node_id := 2, num_of_points := 2, box := [], statistics := [],
    min_dist_so_far := Prec.pinf, left := none, right := none,
    points := [0, 1], index := [0, 1], kneighbors := [[defRec], [defRec]] }

/-- A sink whose second append fails with cause `disk full`. -/
def sinkFail1 : ℕ → Option String := fun m => if m == 1 then some "disk full" else none

/-- A sink that never fails. -/
def sinkOk : ℕ → Option String := fun _ => none

/-! ### Order lemmas for the comparator -/

namespace Prec

theorem ltB_irrefl (a : Prec) : ltB a a = false := by
  cases a <;> simp [ltB]

theorem ltB_asymm {a b : Prec} (h : ltB a b = true) : ltB b a = false := by
  cases a <;> cases b <;> simp_all [ltB]
  exact le_of_lt h

theorem ltB_trans {a b c : Prec} (h1 : ltB a b = true) (h2 : ltB b c = true) :
    ltB a c = true := by
  cases a <;> cases b <;> cases c <;> simp_all [ltB]
  exact lt_trans h1 h2

theorem ltB_trich (a b : Prec) : ltB a b = true ∨ a = b ∨ ltB b a = true := by
  cases a <;> cases b <;> simp_all [ltB]
  exact lt_trichotomy _ _

end Prec

theorem ltC_irrefl (a : Cand) : ltC a a = false := by
  simp [ltC, Prec.ltB_irrefl]

theorem ltC_asymm {a b : Cand} (h : ltC a b = true) : ltC b a = false := by
  rw [← Bool.not_eq_true]
  intro h'
  simp only [ltC, Bool.or_eq_true, Bool.and_eq_true, decide_eq_true_eq] at h h'
  rcases h with h | ⟨he, hi⟩ <;> rcases h' with h' | ⟨he', hi'⟩
  · exact absurd (Prec.ltB_asymm h) (by simp [h'])
  · exact absurd (he' ▸ h) (by simp [Prec.ltB_irrefl])
  · exact absurd (he ▸ h') (by simp [Prec.ltB_irrefl])
  · omega

theorem ltC_trans {a b c : Cand} (h1 : ltC a b = true) (h2 : ltC b c = true) :
    ltC a c = true := by
  simp only [ltC, Bool.or_eq_true, Bool.and_eq_true, decide_eq_true_eq] at *
  rcases h1 with h1 | ⟨he1, hi1⟩
  · rcases h2 with h2 | ⟨he2, _⟩
    · exact Or.inl (Prec.ltB_trans h1 h2)
    · exact Or.inl (he2 ▸ h1)
  · rcases h2 with h2 | ⟨he2, hi2⟩
    · exact Or.inl (he1 ▸ h2)
    · exact Or.inr ⟨he1.trans he2, hi1.trans hi2⟩

theorem ltC_trich (a b : Cand) :
    ltC a b = true ∨ (a.1 = b.1 ∧ a.2.id = b.2.id) ∨ ltC b a = true := by
  simp only [ltC, Bool.or_eq_true, Bool.and_eq_true, decide_eq_true_eq]
  rcases Prec.ltB_trich a.1 b.1 with h | h | h
  · exact Or.inl (Or.inl h)
  · rcases Nat.lt_trichotomy a.2.id b.2.id with hi | hi | hi
    · exact Or.inl (Or.inr ⟨h, hi⟩)
    · exact Or.inr (Or.inl ⟨h, hi⟩)
    · exact Or.inr (Or.inr (Or.inr ⟨h.symm, hi⟩))
  · exact Or.inr (Or.inr (Or.inl h))

theorem leC_refl (a : Cand) : leC a a = true := by
  simp [leC, ltC_irrefl]

theorem leC_total (a b : Cand) : leC a b = true ∨ leC b a = true := by
  simp only [leC, Bool.not_eq_true', ← Bool.not_eq_true]
  by_cases h : ltC b a = true
  · exact Or.inr (by simp [ltC_asymm h])
  · exact Or.inl (by simpa using h)

theorem leC_of_not_leC {a b : Cand} (h : ¬ leC a b = true) : leC b a = true := by
  rcases leC_total a b with h' | h'
  · exact absurd h' h
  · exact h'

theorem leC_trans {a b c : Cand} (h1 : leC a b = true) (h2 : leC b c = true) :
    leC a c = true := by
  simp only [leC, Bool.not_eq_true'] at *
  by_contra hca
  rw [Bool.not_eq_false] at hca
  rcases ltC_trich a b with hab | ⟨he, hi⟩ | hab
  · have : ltC c b = true := ltC_trans hca hab
    simp [this] at h2
  · have : ltC c b = true := by
      simp only [ltC, Bool.or_eq_true, Bool.and_eq_true, decide_eq_true_eq] at hca ⊢
      rcases hca with h | ⟨h1', h2'⟩
      · exact Or.inl (he ▸ h)
      · exact Or.inr ⟨h1'.trans he, hi ▸ h2'⟩
    simp [this] at h2
  · simp [hab] at h1

/-! ### Insertion-sort lemmas (the `std::sort` model) -/

theorem length_insertC (x : Cand) (l : List Cand) :
    (insertC x l).length = l.length + 1 := by
  induction l with
  | nil => rfl
  | cons y ys ih =>
    simp only [insertC]
    split <;> simp [ih]

theorem length_isortC (l : List Cand) : (isortC l).length = l.length := by
  induction l with
  | nil => rfl
  | cons x xs ih => simp [isortC, length_insertC, ih]

theorem perm_insertC (x : Cand) (l : List Cand) : (insertC x l).Perm (x :: l) := by
  induction l with
  | nil => rfl
  | cons y ys ih =>
    simp only [insertC]
    split
    · rfl
    · exact (ih.cons y).trans (List.Perm.swap x y ys)

theorem perm_isortC (l : List Cand) : (isortC l).Perm l := by
  induction l with
  | nil => rfl
  | cons x xs ih => exact (perm_insertC x (isortC xs)).trans (ih.cons x)

/-- Sortedness with respect to the non-strict comparator order. -/
def SortedC (l : List Cand) : Prop := l.Pairwise (fun a b => leC a b = true)

theorem sortedC_insertC {l : List Cand} (x : Cand) (h : SortedC l) :
    SortedC (insertC x l) := by
  induction l with
  | nil => simp [insertC, SortedC]
  | cons y ys ih =>
    rw [SortedC, List.pairwise_cons] at h
    simp only [insertC]
    split
    · rename_i hxy
      rw [SortedC, List.pairwise_cons]
      refine ⟨?_, List.Pairwise.cons h.1 h.2⟩
      intro z hz
      rcases List.mem_cons.mp hz with rfl | hz
      · exact hxy
      · exact leC_trans hxy (h.1 z hz)
    · rename_i hxy
      rw [SortedC, List.pairwise_cons]
      refine ⟨?_, ih h.2⟩
      intro z hz
      rcases List.mem_cons.mp ((perm_insertC x ys).mem_iff.mp hz) with rfl | hz
      · exact leC_of_not_leC hxy
      · exact h.1 z hz

theorem sortedC_isortC (l : List Cand) : SortedC (isortC l) := by
  induction l with
  | nil => simp [isortC, SortedC]
  | cons x xs ih => exact sortedC_insertC x ih

theorem sortedC_take_le_drop {l : List Cand} (h : SortedC l) (k : ℕ) :
    ∀ x ∈ l.take k, ∀ y ∈ l.drop k, leC x y = true := by
  have h' := h
  rw [SortedC, ← List.take_append_drop k l, List.pairwise_append] at h'
  exact h'.2.2

theorem head_isortC_le {l : List Cand} {y : Cand} (hy : y ∈ l) (d : Cand) :
    leC ((isortC l).headD d) y = true := by
  have hmem : y ∈ isortC l := (perm_isortC l).mem_iff.mpr hy
  cases hs : isortC l with
  | nil => simp [hs] at hmem
  | cons m rest =>
    have hsort := sortedC_isortC l
    rw [hs, SortedC, List.pairwise_cons] at hsort
    rw [hs] at hmem
    simp only [List.headD_cons]
    rcases List.mem_cons.mp hmem with rfl | hmem
    · exact leC_refl y
    · exact hsort.1 y hmem

theorem isortC_cons_of_le {l : List Cand} {m : Cand}
    (h : ∀ y ∈ l, leC m y = true) : isortC (m :: l) = m :: isortC l := by
  rw [isortC]
  cases hs : isortC l with
  | nil => rfl
  | cons h' t =>
    have : h' ∈ isortC l := by rw [hs]; exact List.mem_cons_self h' t
    have hm : leC m h' = true := h h' ((perm_isortC l).mem_iff.mp this)
    rw [insertC, if_pos hm]

/-! ### Basic facts about the k-NN trim step -/

/-- Uniform form of the k-NN `FindNearest`: sort the appended list, pad
with sentinels, keep the first `k`. -/
theorem findNearestKnn_eq_take (discr : PointIdDiscriminator) (q : Point)
    (nearest : List Cand) (k dim : ℕ) (nd : Node) :
    findNearestKnn discr q nearest k dim nd =
      (isortC (nearest ++ scanLeaf discr nd dim q)
        ++ List.replicate (k - (nearest ++ scanLeaf discr nd dim q).length)
            dummyCand).take k := by
  simp only [findNearestKnn]
  set all := nearest ++ scanLeaf discr nd dim q with hall
  by_cases h : all.length > k
  · rw [if_pos h]
    have h0 : k - all.length = 0 := Nat.sub_eq_zero_of_le (le_of_lt h)
    rw [h0, List.replicate_zero, List.append_nil]
  · rw [if_neg h]
    push_neg at h
    have hlen : (isortC all ++ List.replicate (k - all.length) dummyCand).length = k := by
      simp only [List.length_append, length_isortC, List.length_replicate]
      omega
    rw [List.take_of_length_le (le_of_eq hlen)]

/-- The trimmed candidate list always has length exactly `k`. -/
theorem length_findNearestKnn (discr : PointIdDiscriminator) (q : Point)
    (nearest : List Cand) (k dim : ℕ) (nd : Node) :
    (findNearestKnn discr q nearest k dim nd).length = k := by
  rw [findNearestKnn_eq_take]
  simp only [List.length_take, List.length_append, length_isortC,
    List.length_replicate]
  omega

/-- Any output entry of the k-NN `FindNearest` is an incoming candidate, a
scanned leaf point, or the sentinel. -/
theorem mem_findNearestKnn {discr : PointIdDiscriminator} {q : Point}
    {nearest : List Cand} {k dim : ℕ} {nd : Node} {c : Cand}
    (h : c ∈ findNearestKnn discr q nearest k dim nd) :
    c ∈ nearest ∨ c ∈ scanLeaf discr nd dim q ∨ c = dummyCand := by
  rw [findNearestKnn_eq_take] at h
  rcases List.mem_append.mp (List.mem_of_mem_take h) with h' | h'
  · rcases List.mem_append.mp ((perm_isortC _).mem_iff.mp h') with h3 | h3
    · exact Or.inl h3
    · exact Or.inr (Or.inl h3)
  · exact Or.inr (Or.inr (List.eq_of_mem_replicate h'))

/-- A scanned candidate never carries the query point's id when the
discriminator identifies equal ids. -/
theorem mem_scanLeaf_id {discr : PointIdDiscriminator} {nd : Node} {dim : ℕ}
    {q : Point} {c : Cand} (hc : c ∈ scanLeaf discr nd dim q)
    (hd : discr q.id q.id = true) : c.2.id ≠ q.id := by
  rcases List.mem_filterMap.mp hc with ⟨i, -, hi⟩
  split at hi
  · exact absurd hi (by simp)
  · rename_i hskip
    intro hEq
    rw [← Option.some.inj hi] at hEq
    simp only at hEq
    rw [hEq] at hskip
    exact hskip hd

/-- Same for the range-mode scan. -/
theorem mem_scanLeafRange_id {discr : PointIdDiscriminator} {nd : Node} {dim : ℕ}
    {q : Point} {r : ℚ} {c : Cand} (hc : c ∈ scanLeafRange discr nd dim q r)
    (hd : discr q.id q.id = true) : c.2.id ≠ q.id := by
  rcases List.mem_filterMap.mp hc with ⟨i, -, hi⟩
  split at hi
  · exact absurd hi (by simp)
  · rename_i hskip
    split at hi
    · intro hEq
      rw [← Option.some.inj hi] at hEq
      simp only at hEq
      rw [hEq] at hskip
      exact hskip hd
    · exact absurd hi (by simp)

/-! ### Indexed-map lemmas -/

theorem length_mapIdxFrom (f : ℕ → α → α) (j : ℕ) (l : List α) :
    (mapIdxFrom f j l).length = l.length := by
  induction l generalizing j with
  | nil => rfl
  | cons x xs ih => simp [mapIdxFrom, ih]

theorem getD_mapIdxFrom (f : ℕ → α → α) (j : ℕ) (l : List α) (i : ℕ) (d : α) :
    (mapIdxFrom f j l).getD i d =
      if i < l.length then f (j + i) (l.getD i d) else d := by
  induction l generalizing j i with
  | nil => simp [mapIdxFrom]
  | cons x xs ih =>
    cases i with
    | zero => simp [mapIdxFrom]
    | succ i' =>
      simp only [mapIdxFrom, List.getD_cons_succ, List.length_cons,
        Nat.add_lt_add_iff_right, ih]
      have h : j + 1 + i' = j + (i' + 1) := by omega
      rw [h]

theorem mem_mapIdxFrom {f : ℕ → α → α} {j : ℕ} {l : List α} {a : α}
    (h : a ∈ mapIdxFrom f j l) (d : α) :
    ∃ i, i < l.length ∧ a = f (j + i) (l.getD i d) := by
  induction l generalizing j with
  | nil => simp [mapIdxFrom] at h
  | cons x xs ih =>
    rcases List.mem_cons.mp h with rfl | h'
    · exact ⟨0, by simp, by simp⟩
    · obtain ⟨i, hi, ha⟩ := ih h'
      refine ⟨i + 1, by simp only [List.length_cons]; omega, ?_⟩
      rw [List.getD_cons_succ, show j + (i + 1) = j + 1 + i by omega]
      exact ha

/-- An element of a k-NN seed list comes from a buffer slot `j < k`. -/
theorem mem_seedRow {row : List NNResult} {k : ℕ} {c : Cand} (h : c ∈ seedRow row k) :
    ∃ j, j < k ∧ c = ((row.getD j defRec).distance, (row.getD j defRec).nearest) := by
  simp only [seedRow, List.mem_map, List.mem_range] at h
  obtain ⟨j, hj, hc⟩ := h
  exact ⟨j, hj, hc.symm⟩

/-! ### Buffer update lemmas -/

theorem getD_set_ne {l : List α} {i j : ℕ} (a d : α) (hij : i ≠ j) :
    (l.set i a).getD j d = l.getD j d := by
  simp [List.getD_eq_getElem?_getD, List.getElem?_set_ne hij]

theorem getD_set_lt {l : List α} {i : ℕ} (a d : α) (h : i < l.length) :
    (l.set i a).getD i d = a := by
  simp [List.getD_eq_getElem?_getD, List.getElem?_set_self h]

/-- `writeRow` of an empty row is empty (out-of-bounds writes land
nowhere). -/
theorem writeRow_nil (k : ℕ) (temp : List Cand) : writeRow k temp [] = [] := rfl

/-! ### The k-NN `FindAllNearest` loop invariant -/

theorem fanLoop_inv (discr : PointIdDiscriminator) (self qnode : Node)
    (k dim : ℕ) : ∀ m,
    (∀ j, m ≤ j →
      (fanLoop discr self qnode k dim m).1.getD j [] = qnode.kneighbors.getD j [])
    ∧ (∀ j, j < m →
      (fanLoop discr self qnode k dim m).1.getD j [] =
        fanRowOut discr self qnode k dim j)
    ∧ (fanLoop discr self qnode k dim m).1.length = qnode.kneighbors.length
    ∧ (fanLoop discr self qnode k dim m).2 = fanMaxUpTo discr self qnode k dim m := by
  intro m
  induction m with
  | zero => exact ⟨fun j _ => rfl, fun j h => absurd h (by omega), rfl, rfl⟩
  | succ m ih =>
    obtain ⟨ih1, ih2, ih3, ih4⟩ := ih
    have hstep : fanLoop discr self qnode k dim (m + 1) =
        fanStep discr self qnode k dim (fanLoop discr self qnode k dim m) m := by
      simp [fanLoop, List.range_succ]
    have hrow : (fanLoop discr self qnode k dim m).1.getD m [] =
        qnode.kneighbors.getD m [] := ih1 m le_rfl
    have htemp :
        findNearestKnn discr (queryPointAt qnode dim m)
          (seedRow ((fanLoop discr self qnode k dim m).1.getD m []) k) k dim self =
        fanTemp discr self qnode k dim m := by
      rw [hrow]; rfl
    have hmax : fanMaxUpTo discr self qnode k dim (m + 1) =
        (if Prec.ltB (fanMaxUpTo discr self qnode k dim m)
            (fanKthDist discr self qnode k dim m)
         then fanKthDist discr self qnode k dim m
         else fanMaxUpTo discr self qnode k dim m) := by
      simp [fanMaxUpTo, List.range_succ]
    refine ⟨?_, ?_, ?_, ?_⟩
    · intro j hj
      rw [hstep]
      simp only [fanStep]
      rw [getD_set_ne _ _ (by omega)]
      exact ih1 j (by omega)
    · intro j hj
      rw [hstep]
      simp only [fanStep]
      rcases Nat.lt_or_ge j m with hjm | hjm
      · rw [getD_set_ne _ _ (by omega)]
        exact ih2 j hjm
      · have hjm' : j = m := by omega
        subst hjm'
        rcases Nat.lt_or_ge j (fanLoop discr self qnode k dim j).1.length with hlen | hlen
        · rw [getD_set_lt _ _ hlen, htemp, hrow]
          rfl
        · rw [List.set_eq_of_length_le hlen]
          have hq : qnode.kneighbors.getD j [] = [] :=
            List.getD_eq_default _ _ (by omega)
          rw [hrow, hq, fanRowOut, hq, writeRow_nil]
    · rw [hstep]
      simp only [fanStep]
      rw [List.length_set]
      exact ih3
    · rw [hstep]
      simp only [fanStep]
      rw [htemp, ih4, hmax]
      rfl

/-- `Node::FindAllNearest` (k-NN) in terms of the loop abbreviation. -/
theorem findAllNearestKnn_eq (discr : PointIdDiscriminator) (self qnode : Node)
    (bound : Prec) (k dim : ℕ) :
    findAllNearestKnn discr self qnode bound k dim =
      ({ qnode with
          kneighbors := (fanLoop discr self qnode k dim qnode.num_of_points).1 },
       Prec.minP bound (fanLoop discr self qnode k dim qnode.num_of_points).2) := rfl

/-! ### Claim C1 -/

/-- C1: for every leaf node, every query point and every k ≥ 1, the k-NN
`FindNearest` (with its candidate list starting empty) returns exactly the
brute-force linear scan's k nearest non-excluded points, ordered ascending
by distance with ties between equal distances broken by ascending original
point id (and padded with sentinels when fewer than k points exist). -/
theorem C1_knn_matches_bruteforce (discr : PointIdDiscriminator) (q : Point)
    (k dim : ℕ) (nd : Node) (_hk : 1 ≤ k) :
    findNearestKnn discr q [] k dim nd = bruteForceKnn discr q k dim nd := by
  rw [findNearestKnn_eq_take]
  simp only [List.nil_append, bruteForceKnn]
  by_cases h : k ≤ (scanLeaf discr nd dim q).length
  · have h0 : k - (scanLeaf discr nd dim q).length = 0 := by omega
    rw [h0, List.replicate_zero]
    simp only [List.append_nil]
  · push_neg at h
    have hlen1 : (isortC (scanLeaf discr nd dim q)).length ≤ k := by
      rw [length_isortC]; omega
    have hlen2 : (isortC (scanLeaf discr nd dim q)
        ++ List.replicate (k - (scanLeaf discr nd dim q).length)
            dummyCand).length ≤ k := by
      simp only [List.length_append, length_isortC, List.length_replicate]
      omega
    rw [List.take_of_length_le hlen2, List.take_of_length_le hlen1]

/-- Witness for C1 on the spec's concrete scenario. -/
theorem C1_knn_matches_bruteforce_witness :
    1 ≤ 2 ∧ findNearestKnn eqD q0 [] 2 2 nd4 = bruteForceKnn eqD q0 2 2 nd4 :=
  ⟨by decide, C1_knn_matches_bruteforce eqD q0 2 2 nd4 (by decide)⟩

/-! ### Claim C2 -/

/-- C2: in k-NN mode, after appending all of the leaf's non-excluded
points to the candidate list, `FindNearest` keeps exactly the k smallest
candidates by the comparator order and discards the rest, pads with
sentinel entries of distance `+infinity` when fewer than k candidates
exist, and always returns a list of length exactly k. -/
theorem C2_trim_keeps_k_smallest (discr : PointIdDiscriminator) (q : Point)
    (seed : List Cand) (k dim : ℕ) (nd : Node) :
    (findNearestKnn discr q seed k dim nd).length = k
    ∧ (k ≤ (seed ++ scanLeaf discr nd dim q).length →
        ∃ rest, (findNearestKnn discr q seed k dim nd ++ rest).Perm
            (seed ++ scanLeaf discr nd dim q)
          ∧ ∀ x ∈ findNearestKnn discr q seed k dim nd, ∀ y ∈ rest,
              leC x y = true)
    ∧ ((seed ++ scanLeaf discr nd dim q).length < k →
        ((findNearestKnn discr q seed k dim nd).take
            (seed ++ scanLeaf discr nd dim q).length).Perm
          (seed ++ scanLeaf discr nd dim q)
        ∧ (findNearestKnn discr q seed k dim nd).drop
            (seed ++ scanLeaf discr nd dim q).length =
          List.replicate (k - (seed ++ scanLeaf discr nd dim q).length)
            dummyCand) := by
  set all := seed ++ scanLeaf discr nd dim q with hall
  refine ⟨length_findNearestKnn discr q seed k dim nd, ?_, ?_⟩
  · intro hk
    rw [findNearestKnn_eq_take, ← hall]
    have h0 : k - all.length = 0 := by omega
    rw [h0, List.replicate_zero, List.append_nil]
    refine ⟨(isortC all).drop k, ?_, ?_⟩
    · rw [List.take_append_drop]
      exact perm_isortC all
    · exact sortedC_take_le_drop (sortedC_isortC all) k
  · intro hk
    rw [findNearestKnn_eq_take, ← hall]
    have hlen : (isortC all ++ List.replicate (k - all.length) dummyCand).length
        = k := by
      simp only [List.length_append, length_isortC, List.length_replicate]
      omega
    rw [List.take_of_length_le (le_of_eq hlen)]
    constructor
    · have h1 : all.length = (isortC all).length := (length_isortC all).symm
      rw [h1, List.take_left]
      exact perm_isortC all
    · have h1 : all.length = (isortC all).length := (length_isortC all).symm
      rw [h1, List.drop_left]

/-- Witness for C2: a leaf with one excluded point, k = 1, sub-k case. -/
theorem C2_trim_keeps_k_smallest_witness :
    (findNearestKnn eqD q5 [] 1 1 nd1).length = 1
    ∧ (1 ≤ ([] ++ scanLeaf eqD nd1 1 q5).length →
        ∃ rest, (findNearestKnn eqD q5 [] 1 1 nd1 ++ rest).Perm
            ([] ++ scanLeaf eqD nd1 1 q5)
          ∧ ∀ x ∈ findNearestKnn eqD q5 [] 1 1 nd1, ∀ y ∈ rest,
              leC x y = true)
    ∧ (([] ++ scanLeaf eqD nd1 1 q5).length < 1 →
        ((findNearestKnn eqD q5 [] 1 1 nd1).take
            ([] ++ scanLeaf eqD nd1 1 q5).length).Perm
          ([] ++ scanLeaf eqD nd1 1 q5)
        ∧ (findNearestKnn eqD q5 [] 1 1 nd1).drop
            ([] ++ scanLeaf eqD nd1 1 q5).length =
          List.replicate (1 - ([] ++ scanLeaf eqD nd1 1 q5).length) dummyCand) :=
  C2_trim_keeps_k_smallest eqD q5 [] 1 1 nd1

/-! ### Claim C7 -/

/-- C7 counterexample: `InitKNeighbors` does not allocate.  On a node whose
neighbor buffer was never allocated, the buffer does not end up with
`pointCount × k` slots — it stays empty. -/
theorem C7_counterexample :
    (initKNeighbors nd1 1).kneighbors.length ≠ nd1.num_of_points * 1 := by
  decide

/-- C7 amended: `InitKNeighbors(k)` does not allocate; provided the
neighbors buffer was allocated beforehand with `pointCount` rows of `k`
slots, it primes the neighbor-id field of every slot of local point `i`
with that point's original dataset id, leaving the buffer shape and the
remaining fields of each slot unchanged. -/
theorem C7_amended (nd : Node) (knns : ℕ)
    (hrows : nd.kneighbors.length = nd.num_of_points)
    (hlen : ∀ row ∈ nd.kneighbors, row.length = knns) :
    (initKNeighbors nd knns).kneighbors.length = nd.num_of_points
    ∧ (∀ i, i < nd.num_of_points →
        ((initKNeighbors nd knns).kneighbors.getD i []).length = knns)
    ∧ (∀ i j, i < nd.num_of_points → j < knns →
        ((initKNeighbors nd knns).kneighbors.getD i []).getD j defRec =
          { (nd.kneighbors.getD i []).getD j defRec with
              point_id := nd.index.getD i 0 }) := by
  have hrow_i : ∀ i, i < nd.num_of_points →
      (initKNeighbors nd knns).kneighbors.getD i [] =
        mapIdxFrom (fun j r =>
          if j < knns then { r with point_id := nd.index.getD i 0 } else r) 0
          (nd.kneighbors.getD i []) := by
    intro i hi
    simp only [initKNeighbors]
    rw [getD_mapIdxFrom, if_pos (by omega : i < nd.kneighbors.length)]
    simp only [Nat.zero_add, if_pos hi]
  have hlen_i : ∀ i, i < nd.num_of_points →
      (nd.kneighbors.getD i []).length = knns := by
    intro i hi
    have hi' : i < nd.kneighbors.length := by omega
    rw [List.getD_eq_getElem _ _ hi']
    exact hlen _ (List.getElem_mem hi')
  refine ⟨?_, ?_, ?_⟩
  · simp only [initKNeighbors]
    rw [length_mapIdxFrom]
    exact hrows
  · intro i hi
    rw [hrow_i i hi, length_mapIdxFrom]
    exact hlen_i i hi
  · intro i j hi hj
    rw [hrow_i i hi, getD_mapIdxFrom,
      if_pos (by rw [hlen_i i hi]; exact hj : j < (nd.kneighbors.getD i []).length)]
    simp only [Nat.zero_add, if_pos hj]

/-- Witness for C7's amended claim on the two-point leaf with a
pre-allocated 2 × 2 buffer. -/
theorem C7_amended_witness :
    nd2.kneighbors.length = nd2.num_of_points
    ∧ ((initKNeighbors nd2 2).kneighbors.length = nd2.num_of_points
    ∧ (∀ i, i < nd2.num_of_points →
        ((initKNeighbors nd2 2).kneighbors.getD i []).length = 2)
    ∧ (∀ i j, i < nd2.num_of_points → j < 2 →
        ((initKNeighbors nd2 2).kneighbors.getD i []).getD j defRec =
          { (nd2.kneighbors.getD i []).getD j defRec with
              point_id := nd2.index.getD i 0 })) :=
  ⟨by decide, C7_amended nd2 2 (by decide) (by decide)⟩

/-! ### Claim C9 -/

/-- C9: query-time operations leave every node field except the neighbors
buffer unchanged — k-NN `FindAllNearest` writes only `kneighbors_` of the
query node (points, ids, box, statistics, point count, children, node id
and the cached minimum distance are preserved) — and `Print` reads fields
without mutating any node state. -/
theorem C9_frame (discr : PointIdDiscriminator) (self qnode nd : Node)
    (bound : Prec) (k dim pdim : ℕ) :
    ((findAllNearestKnn discr self qnode bound k dim).1.points = qnode.points
    ∧ (findAllNearestKnn discr self qnode bound k dim).1.index = qnode.index
    ∧ (findAllNearestKnn discr self qnode bound k dim).1.box = qnode.box
    ∧ (findAllNearestKnn discr self qnode bound k dim).1.statistics
        = qnode.statistics
    ∧ (findAllNearestKnn discr self qnode bound k dim).1.num_of_points
        = qnode.num_of_points
    ∧ (findAllNearestKnn discr self qnode bound k dim).1.left = qnode.left
    ∧ (findAllNearestKnn discr self qnode bound k dim).1.right = qnode.right
    ∧ (findAllNearestKnn discr self qnode bound k dim).1.node_id = qnode.node_id
    ∧ (findAllNearestKnn discr self qnode bound k dim).1.min_dist_so_far
        = qnode.min_dist_so_far)
    ∧ printS nd pdim = (nodePrintStr nd pdim, nd) :=
  ⟨⟨rfl, rfl, rfl, rfl, rfl, rfl, rfl, rfl, rfl⟩, rfl⟩

/-! ### Claim C10 -/

/-- C10 counterexample: with an empty incoming candidate list and a leaf
whose only point is excluded by the discriminator, the trim boundary for
k = 1 lies beyond the end of the candidate list — the iterator advance
walks past `end()`. -/
theorem C10_counterexample : ¬ findNearestTrimInBounds eqD q5 [] 1 1 nd1 := by
  decide

/-- C10 amended: the trim boundary stays within bounds whenever the
candidate list enters `FindNearest` with at least k entries — as in every
k-NN call issued by `FindAllNearest`, which seeds exactly k candidates —
but not in general when the list holds fewer than k candidates. -/
theorem C10_amended (discr : PointIdDiscriminator) (q : Point)
    (nearest : List Cand) (k dim : ℕ) (nd : Node) (h : k ≤ nearest.length) :
    findNearestTrimInBounds discr q nearest k dim nd := by
  unfold findNearestTrimInBounds
  rw [List.length_append]
  omega

/-- Witness for C10's amended claim: a one-entry seed with k = 1. -/
theorem C10_amended_witness :
    1 ≤ seedBad.length ∧ findNearestTrimInBounds eqD q5 seedBad 1 1 nd1 :=
  ⟨by decide, C10_amended eqD q5 seedBad 1 1 nd1 (by decide)⟩

/-! ### Claim C4 -/

theorem leB_minP (a b : Prec) : Prec.leB (Prec.minP a b) a = true := by
  unfold Prec.minP
  split
  · rename_i h
    simp [Prec.leB, Prec.ltB_asymm h]
  · simp [Prec.leB, Prec.ltB_irrefl]

/-- C4: k-NN `FindAllNearest` maintains the running worst (maximum) of the
k-th smallest recorded neighbor distances across the query node's points
(`fanMaxUpTo`, built from each point's `temp.back().first`) and returns the
incoming pruning bound lowered to it; the returned bound never exceeds the
incoming bound. -/
theorem C4_bound_tightens (discr : PointIdDiscriminator) (self qnode : Node)
    (bound : Prec) (k dim : ℕ) :
    (findAllNearestKnn discr self qnode bound k dim).2 =
      Prec.minP bound (fanMaxUpTo discr self qnode k dim qnode.num_of_points)
    ∧ Prec.leB (findAllNearestKnn discr self qnode bound k dim).2 bound
        = true := by
  have h4 := (fanLoop_inv discr self qnode k dim qnode.num_of_points).2.2.2
  constructor
  · rw [findAllNearestKnn_eq, h4]
  · rw [findAllNearestKnn_eq, h4]
    exact leB_minP bound _

/-! ### Claim C5 -/

/-- C5 counterexample: the k-NN `FindNearest` output can retain a seeded
candidate carrying the query point's own id even though the discriminator
excludes self-matches — only the scan loop applies the discriminator. -/
theorem C5_counterexample :
    eqD q5.id q5.id = true
    ∧ (findNearestKnn eqD q5 seedBad 1 1 nd1).map (fun c => c.2.id)
        = [q5.id] := by
  decide

/-- Any k-NN output entry avoids the query id provided the discriminator
identifies equal ids, the incoming candidates avoid it, and the sentinel's
default point id differs from it. -/
theorem mem_findNearestKnn_id {discr : PointIdDiscriminator} {q : Point}
    {seed : List Cand} {k dim : ℕ} {nd : Node} {c : Cand}
    (hd : discr q.id q.id = true)
    (hseed : ∀ c' ∈ seed, (c' : Cand).2.id ≠ q.id)
    (hq : q.id ≠ defaultPoint.id)
    (hc : c ∈ findNearestKnn discr q seed k dim nd) : c.2.id ≠ q.id := by
  rcases mem_findNearestKnn hc with h | h | h
  · exact hseed c h
  · exact mem_scanLeaf_id h hd
  · rw [h]
    exact fun hEq => hq hEq.symm

theorem mem_emitAll {sink : ℕ → Option String} {recs : List NNResult}
    {pos : ℕ} {x : NNResult} (h : x ∈ (emitAll sink recs pos).1) : x ∈ recs := by
  induction recs generalizing pos with
  | nil => simp [emitAll] at h
  | cons r rest ih =>
    rw [emitAll] at h
    cases hs : sink pos with
    | none =>
      rw [hs] at h
      simp only [List.mem_cons] at h
      rcases h with rfl | h
      · exact List.mem_cons_self x rest
      · exact List.mem_cons_of_mem r (ih h)
    | some cause =>
      rw [hs] at h
      simp at h

/-- Every record streamed by the range `FindAllNearest` belongs to some
query point's qualifying-record list. -/
theorem mem_findAllNearestRange {discr : PointIdDiscriminator}
    {self qnode : Node} {r : ℚ} {dim : ℕ} {sink : ℕ → Option String}
    {rec : NNResult} (h : rec ∈ (findAllNearestRange discr self qnode r dim sink).1) :
    ∃ i, i < qnode.num_of_points
      ∧ rec ∈ rangeRecords discr self qnode r dim i := by
  have aux : ∀ m, ∀ x ∈ ((List.range m).foldl
      (fun acc i =>
        match acc.2.1 with
        | some e => (acc.1, some e, acc.2.2)
        | none =>
          let o := emitAll sink (rangeRecords discr self qnode r dim i) acc.2.2
          (acc.1 ++ o.1, o.2.1, o.2.2))
      (([] : List NNResult), (none : Option String), 0)).1,
      ∃ i, i < m ∧ x ∈ rangeRecords discr self qnode r dim i := by
    intro m
    induction m with
    | zero => intro x hx; simp at hx
    | succ m ih =>
      intro x hx
      rw [List.range_succ, List.foldl_append, List.foldl_cons, List.foldl_nil]
        at hx
      cases hflag : ((List.range m).foldl
          (fun acc i =>
            match acc.2.1 with
            | some e => (acc.1, some e, acc.2.2)
            | none =>
              let o := emitAll sink (rangeRecords discr self qnode r dim i)
                acc.2.2
              (acc.1 ++ o.1, o.2.1, o.2.2))
          (([] : List NNResult), (none : Option String), 0)).2.1 with
      | some e =>
        rw [hflag] at hx
        simp only at hx
        obtain ⟨i, hi, hmem⟩ := ih x hx
        exact ⟨i, by omega, hmem⟩
      | none =>
        rw [hflag] at hx
        simp only at hx
        rcases List.mem_append.mp hx with hx' | hx'
        · obtain ⟨i, hi, hmem⟩ := ih x hx'
          exact ⟨i, by omega, hmem⟩
        · exact ⟨m, by omega, mem_emitAll hx'⟩
  simp only [findAllNearestRange] at h
  exact aux qnode.num_of_points rec h

/-- C5 amended: provided the discriminator identifies equal ids, no record
*appended by the scan* ever carries the query point's id; consequently the
k-NN `FindNearest` output avoids the query id whenever the seeded
candidates (and the sentinel's default id) avoid it, the range outputs
avoid it unconditionally, and the k-NN `FindAllNearest` buffer rows avoid
their own point's id whenever the incoming buffer rows (and the default
id) avoid it.  The claim as stated fails because seeded entries bypass the
discriminator (see the counterexample). -/
theorem C5_amended (discr : PointIdDiscriminator) (hd : ∀ a, discr a a = true) :
    (∀ (q : Point) (seed : List Cand) (k dim : ℕ) (nd : Node),
      (∀ c ∈ seed, (c : Cand).2.id ≠ q.id) → q.id ≠ defaultPoint.id →
      ∀ c ∈ findNearestKnn discr q seed k dim nd, (c : Cand).2.id ≠ q.id)
    ∧ (∀ (q : Point) (seed : List Cand) (r : ℚ) (dim : ℕ) (nd : Node),
      (∀ c ∈ seed, (c : Cand).2.id ≠ q.id) →
      ∀ c ∈ findNearestRange discr q seed r dim nd, (c : Cand).2.id ≠ q.id)
    ∧ (∀ (self qnode : Node) (r : ℚ) (dim : ℕ) (sink : ℕ → Option String),
      ∀ rec ∈ (findAllNearestRange discr self qnode r dim sink).1,
        (rec : NNResult).nearest.id ≠ rec.point_id)
    ∧ (∀ (self qnode : Node) (bound : Prec) (k dim : ℕ),
      (∀ i, i < qnode.num_of_points → ∀ s ∈ qnode.kneighbors.getD i [],
        (s : NNResult).nearest.id ≠ qnode.index.getD i 0) →
      (∀ i, i < qnode.num_of_points →
        qnode.index.getD i 0 ≠ defaultPoint.id) →
      ∀ i, i < qnode.num_of_points →
      ∀ s ∈ (findAllNearestKnn discr self qnode bound k dim).1.kneighbors.getD
          i [],
        (s : NNResult).nearest.id ≠ qnode.index.getD i 0) := by
  refine ⟨?_, ?_, ?_, ?_⟩
  · intro q seed k dim nd hseed hq c hc
    exact mem_findNearestKnn_id (hd q.id) hseed hq hc
  · intro q seed r dim nd hseed c hc
    rcases List.mem_append.mp hc with h | h
    · exact hseed c h
    · exact mem_scanLeafRange_id h (hd q.id)
  · intro self qnode r dim sink rec hrec
    obtain ⟨i, hi, hmem⟩ := mem_findAllNearestRange hrec
    simp only [rangeRecords, List.mem_map] at hmem
    obtain ⟨c, hc, rfl⟩ := hmem
    simp only
    rcases List.mem_append.mp hc with h | h
    · simp at h
    · exact mem_scanLeafRange_id h (hd _)
  · intro self qnode bound k dim hbuf hqd i hi s hs
    rw [findAllNearestKnn_eq] at hs
    simp only at hs
    rw [(fanLoop_inv discr self qnode k dim qnode.num_of_points).2.1 i hi] at hs
    rw [fanRowOut, writeRow] at hs
    obtain ⟨j, hj, rfl⟩ := mem_mapIdxFrom hs defRec
    simp only [Nat.zero_add]
    have horig : ∀ j', (qnode.kneighbors.getD i []).getD j' defRec
        ∈ qnode.kneighbors.getD i [] ∨
        (qnode.kneighbors.getD i []).getD j' defRec = defRec := by
      intro j'
      rcases Nat.lt_or_ge j' (qnode.kneighbors.getD i []).length with h' | h'
      · exact Or.inl (by rw [List.getD_eq_getElem _ _ h']
                         exact List.getElem_mem h')
      · exact Or.inr (List.getD_eq_default _ _ h')
    have horig_id : ∀ j', ((qnode.kneighbors.getD i []).getD j' defRec).nearest.id
        ≠ qnode.index.getD i 0 := by
      intro j'
      rcases horig j' with h' | h'
      · exact hbuf i hi _ h'
      · rw [h']
        exact fun hEq => (hqd i hi) hEq.symm
    by_cases hjk : j < k
    · rw [if_pos hjk]
      simp only
      set t := fanTemp discr self qnode k dim i with hT
      have htlen : t.length = k := length_findNearestKnn _ _ _ _ _ _
      have hmem : t.getD j dummyCand ∈ t := by
        rw [List.getD_eq_getElem _ _ (by omega)]
        exact List.getElem_mem (by omega)
      have hqid : (queryPointAt qnode dim i).id = qnode.index.getD i 0 := rfl
      have := mem_findNearestKnn_id (q := queryPointAt qnode dim i)
        (hd _)
        (fun c' hc' => by
          obtain ⟨j', hj', rfl⟩ := mem_seedRow hc'
          rw [hqid]
          exact horig_id j')
        (by rw [hqid]; exact hqd i hi)
        (hT ▸ hmem)
      rw [hqid] at this
      exact this
    · rw [if_neg hjk]
      exact horig_id j

/-- Witness for C5's amended claim with the default equality
discriminator. -/
theorem C5_amended_witness :
    (∀ a, eqD a a = true)
    ∧ ((∀ (q : Point) (seed : List Cand) (k dim : ℕ) (nd : Node),
      (∀ c ∈ seed, (c : Cand).2.id ≠ q.id) → q.id ≠ defaultPoint.id →
      ∀ c ∈ findNearestKnn eqD q seed k dim nd, (c : Cand).2.id ≠ q.id)
    ∧ (∀ (q : Point) (seed : List Cand) (r : ℚ) (dim : ℕ) (nd : Node),
      (∀ c ∈ seed, (c : Cand).2.id ≠ q.id) →
      ∀ c ∈ findNearestRange eqD q seed r dim nd, (c : Cand).2.id ≠ q.id)
    ∧ (∀ (self qnode : Node) (r : ℚ) (dim : ℕ) (sink : ℕ → Option String),
      ∀ rec ∈ (findAllNearestRange eqD self qnode r dim sink).1,
        (rec : NNResult).nearest.id ≠ rec.point_id)
    ∧ (∀ (self qnode : Node) (bound : Prec) (k dim : ℕ),
      (∀ i, i < qnode.num_of_points → ∀ s ∈ qnode.kneighbors.getD i [],
        (s : NNResult).nearest.id ≠ qnode.index.getD i 0) →
      (∀ i, i < qnode.num_of_points →
        qnode.index.getD i 0 ≠ defaultPoint.id) →
      ∀ i, i < qnode.num_of_points →
      ∀ s ∈ (findAllNearestKnn eqD self qnode bound k dim).1.kneighbors.getD
          i [],
        (s : NNResult).nearest.id ≠ qnode.index.getD i 0)) :=
  ⟨fun a => by simp [eqD], C5_amended eqD (fun a => by simp [eqD])⟩

/-! ### Claim C6 -/

/-- With `k = 1` the trimmed list is the head of the sorted appended
list. -/
theorem findNearestKnn_one_head (discr : PointIdDiscriminator) (q : Point)
    (seed : List Cand) (dim : ℕ) (nd : Node) (hseed : seed ≠ []) :
    findNearestKnn discr q seed 1 dim nd =
      [(isortC (seed ++ scanLeaf discr nd dim q)).headD dummyCand] := by
  rw [findNearestKnn_eq_take]
  have hne : (seed ++ scanLeaf discr nd dim q).length ≠ 0 := by
    cases seed with
    | nil => exact absurd rfl hseed
    | cons a t => simp
  cases hi : isortC (seed ++ scanLeaf discr nd dim q) with
  | nil =>
    have hl := length_isortC (seed ++ scanLeaf discr nd dim q)
    rw [hi] at hl
    exact absurd hl.symm hne
  | cons a t =>
    rw [List.cons_append, List.take_succ_cons, List.take_zero, List.headD_cons]

/-- With `k = 1` the returned record is a comparator lower bound of every
appended candidate. -/
theorem findNearestKnn_one_min (discr : PointIdDiscriminator) (q : Point)
    (seed : List Cand) (dim : ℕ) (nd : Node) (hseed : seed ≠ []) :
    ∀ y ∈ seed ++ scanLeaf discr nd dim q,
      leC ((findNearestKnn discr q seed 1 dim nd).getD 0 dummyCand) y = true := by
  intro y hy
  rw [findNearestKnn_one_head discr q seed dim nd hseed, List.getD_cons_zero]
  exact head_isortC_le hy dummyCand

/-- Re-running the `k = 1` search seeded with its own previous result
returns that result unchanged. -/
theorem findNearestKnn_fixpoint_one (discr : PointIdDiscriminator) (q : Point)
    (dim : ℕ) (nd : Node) (m : Cand)
    (hm : ∀ y ∈ scanLeaf discr nd dim q, leC m y = true) :
    findNearestKnn discr q [m] 1 dim nd = [m] := by
  rw [findNearestKnn_one_head discr q [m] dim nd (by simp)]
  have h1 : ([m] ++ scanLeaf discr nd dim q) = m :: scanLeaf discr nd dim q := rfl
  rw [h1, isortC_cons_of_le hm, List.headD_cons]

/-- C6 counterexample: running the same k-NN query twice (k = 2, the
two-point leaf queried against itself) changes the neighbors buffer — the
second run re-appends the leaf's points to the seeded candidates and the
duplicate displaces the sentinel written by the first run. -/
theorem C6_counterexample :
    (findAllNearestKnn eqD nd2 (findAllNearestKnn eqD nd2 nd2 Prec.pinf 2 1).1
        Prec.pinf 2 1).1.kneighbors
      ≠ (findAllNearestKnn eqD nd2 nd2 Prec.pinf 2 1).1.kneighbors := by
  with_unfolding_all decide

/-- C6 amended: the second identical run is buffer-idempotent for `k = 1`
(each row's single record is already the comparator minimum of its seed
and the leaf's candidates, so re-merging reproduces it); for `k ≥ 2` the
re-appended leaf points can duplicate recorded neighbors and change the
buffer, as the counterexample shows. -/
theorem C6_amended (discr : PointIdDiscriminator) (self qnode : Node)
    (bound bound2 : Prec) (dim : ℕ)
    (hbuf : qnode.kneighbors.length = qnode.num_of_points)
    (hrows : ∀ row ∈ qnode.kneighbors, row.length = 1) :
    (findAllNearestKnn discr self
        (findAllNearestKnn discr self qnode bound 1 dim).1 bound2 1
        dim).1.kneighbors
      = (findAllNearestKnn discr self qnode bound 1 dim).1.kneighbors := by
  obtain ⟨inv1a, inv1b, inv1c, -⟩ :=
    fanLoop_inv discr self qnode 1 dim qnode.num_of_points
  have hB1 : (findAllNearestKnn discr self qnode bound 1 dim).1.kneighbors
      = (fanLoop discr self qnode 1 dim qnode.num_of_points).1 := rfl
  obtain ⟨inv2a, inv2b, inv2c, -⟩ :=
    fanLoop_inv discr self (findAllNearestKnn discr self qnode bound 1 dim).1
      1 dim qnode.num_of_points
  have hgoal : (findAllNearestKnn discr self
      (findAllNearestKnn discr self qnode bound 1 dim).1 bound2 1
      dim).1.kneighbors
      = (fanLoop discr self (findAllNearestKnn discr self qnode bound 1 dim).1
          1 dim qnode.num_of_points).1 := rfl
  rw [hgoal, hB1]
  apply List.ext_getElem
  · rw [inv2c, hB1]
  · intro idx h1 h2
    rw [← List.getD_eq_getElem _ [] h1, ← List.getD_eq_getElem _ [] h2]
    rcases Nat.lt_or_ge idx qnode.num_of_points with hidx | hidx
    · rw [inv2b idx hidx, inv1b idx hidx]
      have hrowlen : (qnode.kneighbors.getD idx []).length = 1 := by
        have hidx' : idx < qnode.kneighbors.length := by omega
        rw [List.getD_eq_getElem _ _ hidx']
        exact hrows _ (List.getElem_mem hidx')
      obtain ⟨r, hr⟩ := List.length_eq_one.mp hrowlen
      have hseed1 : seedRow (qnode.kneighbors.getD idx []) 1
          = [(r.distance, r.nearest)] := by
        rw [hr]
        rfl
      have hhead : findNearestKnn discr (queryPointAt qnode dim idx)
          [(r.distance, r.nearest)] 1 dim self =
          [(isortC ((r.distance, r.nearest)
              :: scanLeaf discr self dim (queryPointAt qnode dim idx))).headD
            dummyCand] :=
        findNearestKnn_one_head discr _ _ dim self (by simp)
      have ht1m : fanTemp discr self qnode 1 dim idx =
          [(isortC ((r.distance, r.nearest)
              :: scanLeaf discr self dim (queryPointAt qnode dim idx))).headD
            dummyCand] := by
        rw [fanTemp, hseed1]
        exact hhead
      have hmle : ∀ y ∈ scanLeaf discr self dim (queryPointAt qnode dim idx),
          leC ((isortC ((r.distance, r.nearest)
              :: scanLeaf discr self dim (queryPointAt qnode dim idx))).headD
            dummyCand) y = true := by
        intro y hy
        have hmin := findNearestKnn_one_min discr (queryPointAt qnode dim idx)
          [(r.distance, r.nearest)] dim self (by simp) y
          (List.mem_append_right _ hy)
        rw [hhead, List.getD_cons_zero] at hmin
        exact hmin
      have hrow1 : fanRowOut discr self qnode 1 dim idx =
          [{ r with
              distance := ((isortC ((r.distance, r.nearest)
                :: scanLeaf discr self dim (queryPointAt qnode dim idx))).headD
                  dummyCand).1,
              nearest := ((isortC ((r.distance, r.nearest)
                :: scanLeaf discr self dim (queryPointAt qnode dim idx))).headD
                  dummyCand).2 }] := by
        rw [fanRowOut, ht1m, hr]
        rfl
      have hB1row : (findAllNearestKnn discr self qnode bound 1
          dim).1.kneighbors.getD idx []
          = [{ r with
              distance := ((isortC ((r.distance, r.nearest)
                :: scanLeaf discr self dim (queryPointAt qnode dim idx))).headD
                  dummyCand).1,
              nearest := ((isortC ((r.distance, r.nearest)
                :: scanLeaf discr self dim (queryPointAt qnode dim idx))).headD
                  dummyCand).2 }] := by
        rw [hB1, inv1b idx hidx, hrow1]
      have hseed2 : seedRow ((findAllNearestKnn discr self qnode bound 1
          dim).1.kneighbors.getD idx []) 1
          = [(isortC ((r.distance, r.nearest)
              :: scanLeaf discr self dim (queryPointAt qnode dim idx))).headD
            dummyCand] := by
        rw [hB1row]
        rfl
      have hqi2 : queryPointAt (findAllNearestKnn discr self qnode bound 1
          dim).1 dim idx = queryPointAt qnode dim idx := rfl
      have ht2 : fanTemp discr self (findAllNearestKnn discr self qnode bound 1
          dim).1 1 dim idx
          = [(isortC ((r.distance, r.nearest)
              :: scanLeaf discr self dim (queryPointAt qnode dim idx))).headD
            dummyCand] := by
        rw [fanTemp, hseed2, hqi2]
        exact findNearestKnn_fixpoint_one discr _ dim self _ hmle
      rw [fanRowOut, ht2, hB1row, hrow1]
      rfl
    · rw [inv2a idx hidx, hB1, inv1a idx hidx]

/-- Witness for C6's amended claim: the two-point self-query with k = 1. -/
theorem C6_amended_witness :
    nd2a.kneighbors.length = nd2a.num_of_points
    ∧ (∀ row ∈ nd2a.kneighbors, row.length = 1)
    ∧ (findAllNearestKnn eqD nd2a
          (findAllNearestKnn eqD nd2a nd2a Prec.pinf 1 1).1 Prec.pinf 1
          1).1.kneighbors
        = (findAllNearestKnn eqD nd2a nd2a Prec.pinf 1 1).1.kneighbors :=
  ⟨by decide, by decide,
   C6_amended eqD nd2a nd2a Prec.pinf Prec.pinf 1 (by decide) (by decide)⟩

/-! ### Claims C3 and C8 -/

/-- The range-mode scan is the k-NN scan filtered by the radius. -/
theorem scanLeafRange_eq_filter (discr : PointIdDiscriminator) (nd : Node)
    (dim : ℕ) (q : Point) (r : ℚ) :
    scanLeafRange discr nd dim q r =
      (scanLeaf discr nd dim q).filter fun c => Prec.leB c.1 (Prec.fin r) := by
  rw [scanLeaf, scanLeafRange, List.filter_filterMap]
  congr 1
  funext i
  by_cases h1 : discr (nd.index.getD i 0) q.id = true
  · rw [if_pos h1, if_pos h1]
    rfl
  · rw [if_neg h1, if_neg h1]
    by_cases h2 : sqDistD dim q.coords (pointAt nd dim i) ≤ r
    · rw [if_pos h2]
      have hp : Prec.leB (Prec.fin (sqDistD dim q.coords (pointAt nd dim i)))
          (Prec.fin r) = true := by
        simp only [Prec.leB, Prec.ltB, Bool.not_eq_true', decide_eq_false_iff_not]
        exact not_lt.mpr h2
      simp [Option.filter, hp]
    · rw [if_neg h2]
      have hp : Prec.leB (Prec.fin (sqDistD dim q.coords (pointAt nd dim i)))
          (Prec.fin r) = false := by
        simp only [Prec.leB, Prec.ltB, Bool.not_eq_false', decide_eq_true_eq]
        exact not_le.mp h2
      simp [Option.filter, hp]

/-- Range `FindNearest` from an empty candidate list is exactly the
brute-force radius filter. -/
theorem findNearestRange_nil (discr : PointIdDiscriminator) (q : Point) (r : ℚ)
    (dim : ℕ) (nd : Node) :
    findNearestRange discr q [] r dim nd = bruteForceRange discr q r dim nd := by
  rw [findNearestRange, List.nil_append, scanLeafRange_eq_filter, bruteForceRange]

theorem rangeRecords_eq (discr : PointIdDiscriminator) (self qnode : Node)
    (r : ℚ) (dim i : ℕ) :
    rangeRecords discr self qnode r dim i =
      (bruteForceRange discr (queryPointAt qnode dim i) r dim self).map
        fun c => NNResult.mk (qnode.index.getD i 0) c.2 c.1 := by
  rw [rangeRecords, findNearestRange_nil]

theorem bruteAllRange_eq_flatten (discr : PointIdDiscriminator)
    (self qnode : Node) (r : ℚ) (dim : ℕ) :
    bruteAllRange discr self qnode r dim =
      ((List.range qnode.num_of_points).map
        (rangeRecords discr self qnode r dim)).flatten := by
  simp only [bruteAllRange, ← rangeRecords_eq]

/-- A never-failing run of appends writes every record and advances the
position by the record count. -/
theorem emitAll_ok (sink : ℕ → Option String) (h : ∀ m, sink m = none) :
    ∀ (recs : List NNResult) (pos : ℕ),
    emitAll sink recs pos = (recs, none, pos + recs.length) := by
  intro recs
  induction recs with
  | nil => intro pos; rfl
  | cons x xs ih =>
    intro pos
    simp only [emitAll, h pos, ih, List.length_cons, Prod.mk.injEq, true_and]
    omega

/-- A run of appends over a sink whose first failure is at position `t`
writes the records below `t` and aborts there. -/
theorem emitAll_fail (sink : ℕ → Option String) (t : ℕ) (cause : String)
    (hok : ∀ m, m < t → sink m = none) (ht : sink t = some cause) :
    ∀ (recs : List NNResult) (pos : ℕ), pos ≤ t →
    emitAll sink recs pos =
      if t < pos + recs.length then
        (recs.take (t - pos),
         some ("Error while writing range nearest neighbors: " ++ cause), t)
      else (recs, none, pos + recs.length) := by
  intro recs
  induction recs with
  | nil =>
    intro pos hpos
    rw [if_neg (by simp only [List.length_nil]; omega)]
    rfl
  | cons x xs ih =>
    intro pos hpos
    rcases eq_or_lt_of_le hpos with rfl | hlt
    · simp only [emitAll, ht]
      rw [if_pos (by simp only [List.length_cons]; omega)]
      simp [Nat.sub_self]
    · simp only [emitAll, hok pos hlt]
      rw [ih (pos + 1) (by omega)]
      by_cases hc : t < pos + 1 + xs.length
      · rw [if_pos hc, if_pos (by simp only [List.length_cons]; omega)]
        simp only [Prod.mk.injEq, and_true, true_and]
        have htp : t - pos = (t - (pos + 1)) + 1 := by omega
        rw [htp, List.take_succ_cons]
      · rw [if_neg hc, if_neg (by simp only [List.length_cons]; omega)]
        simp only [List.length_cons, Prod.mk.injEq, true_and]
        omega

/-- The streaming loop with a never-failing sink emits the full per-point
record lists in order. -/
theorem rangeFold_ok (discr : PointIdDiscriminator) (self qnode : Node)
    (r : ℚ) (dim : ℕ) : ∀ m,
    (List.range m).foldl
      (fun acc i =>
        match acc.2.1 with
        | some e => (acc.1, some e, acc.2.2)
        | none =>
          let o := emitAll (fun _ => none)
            (rangeRecords discr self qnode r dim i) acc.2.2
          (acc.1 ++ o.1, o.2.1, o.2.2))
      (([] : List NNResult), (none : Option String), 0)
    = (((List.range m).map (rangeRecords discr self qnode r dim)).flatten, none,
       (((List.range m).map
          (rangeRecords discr self qnode r dim)).flatten).length) := by
  intro m
  induction m with
  | zero => rfl
  | succ m ih =>
    rw [List.range_succ, List.foldl_append, List.foldl_cons, List.foldl_nil, ih]
    dsimp only
    rw [emitAll_ok _ (fun _ => rfl)]
    simp only [List.map_append, List.map_cons, List.map_nil,
      List.flatten_append, List.flatten_cons, List.flatten_nil,
      List.append_nil, List.length_append, Prod.mk.injEq, true_and]

/-- The streaming loop with a sink first failing at position `t` writes the
first `t` emitted records and carries the fatal message from there on. -/
theorem rangeFold_fail (discr : PointIdDiscriminator) (self qnode : Node)
    (r : ℚ) (dim : ℕ) (sink : ℕ → Option String) (t : ℕ) (cause : String)
    (hok : ∀ m, m < t → sink m = none) (ht : sink t = some cause) : ∀ m,
    (List.range m).foldl
      (fun acc i =>
        match acc.2.1 with
        | some e => (acc.1, some e, acc.2.2)
        | none =>
          let o := emitAll sink (rangeRecords discr self qnode r dim i) acc.2.2
          (acc.1 ++ o.1, o.2.1, o.2.2))
      (([] : List NNResult), (none : Option String), 0)
    = (if t < (((List.range m).map
          (rangeRecords discr self qnode r dim)).flatten).length then
        ((((List.range m).map
            (rangeRecords discr self qnode r dim)).flatten).take t,
         some ("Error while writing range nearest neighbors: " ++ cause), t)
       else (((List.range m).map (rangeRecords discr self qnode r dim)).flatten,
             none,
             (((List.range m).map
                (rangeRecords discr self qnode r dim)).flatten).length)) := by
  intro m
  induction m with
  | zero =>
    rw [if_neg (by simp)]
    rfl
  | succ m ih =>
    rw [List.range_succ, List.foldl_append, List.foldl_cons, List.foldl_nil, ih]
    have hF1 : (((List.range m ++ [m]).map
        (rangeRecords discr self qnode r dim)).flatten)
        = ((List.range m).map (rangeRecords discr self qnode r dim)).flatten
          ++ rangeRecords discr self qnode r dim m := by
      simp
    rw [hF1]
    by_cases h1 : t < (((List.range m).map
        (rangeRecords discr self qnode r dim)).flatten).length
    · rw [if_pos h1]
      dsimp only
      rw [if_pos (by rw [List.length_append]; omega)]
      rw [List.take_append_of_le_length (by omega)]
    · rw [if_neg h1]
      push_neg at h1
      dsimp only
      rw [emitAll_fail sink t cause hok ht _ _ h1]
      by_cases h2 : t < (((List.range m).map
          (rangeRecords discr self qnode r dim)).flatten).length
          + (rangeRecords discr self qnode r dim m).length
      · rw [if_pos h2, if_pos (by rw [List.length_append]; omega)]
        dsimp only
        rw [List.take_append_eq_append_take,
          List.take_of_length_le (show (((List.range m).map
            (rangeRecords discr self qnode r dim)).flatten).length ≤ t by omega)]
      · rw [if_neg h2, if_neg (by rw [List.length_append]; omega)]
        dsimp only
        rw [List.length_append]

/-- C3: for every radius r ≥ 0 and every query point, range-mode
`FindNearest` collects exactly the leaf points within distance r of the
query point (self-matches excluded), with no omissions and no duplicates,
and range-mode `FindAllNearest` (with a sink accepting every record) emits
exactly those records for each of the query node's points, in order. -/
theorem C3_range_exact (discr : PointIdDiscriminator) (q : Point) (r : ℚ)
    (dim : ℕ) (nd self qnode : Node) (_hr : 0 ≤ r) :
    findNearestRange discr q [] r dim nd = bruteForceRange discr q r dim nd
    ∧ (findAllNearestRange discr self qnode r dim (fun _ => none)).1
        = bruteAllRange discr self qnode r dim
    ∧ (findAllNearestRange discr self qnode r dim (fun _ => none)).2.1
        = none := by
  refine ⟨findNearestRange_nil discr q r dim nd, ?_, ?_⟩
  · simp only [findAllNearestRange]
    rw [rangeFold_ok discr self qnode r dim qnode.num_of_points,
      bruteAllRange_eq_flatten]
  · simp only [findAllNearestRange]
    rw [rangeFold_ok discr self qnode r dim qnode.num_of_points]

/-- Witness for C3 on the two-point leaf with radius 5. -/
theorem C3_range_exact_witness :
    (0 : ℚ) ≤ 5
    ∧ (findNearestRange eqD q0 [] 5 1 nd2 = bruteForceRange eqD q0 5 1 nd2
    ∧ (findAllNearestRange eqD nd2 nd2 5 1 (fun _ => none)).1
        = bruteAllRange eqD nd2 nd2 5 1
    ∧ (findAllNearestRange eqD nd2 nd2 5 1 (fun _ => none)).2.1 = none) :=
  ⟨by norm_num, C3_range_exact eqD q0 5 1 nd2 nd2 nd2 (by norm_num)⟩

/-- C8: range-mode `FindAllNearest` appends exactly one `NNResult` per
qualifying neighbor per query point (a never-failing sink receives the
full emission list); when the sink's append first fails at position t, the
query aborts fatally with a message naming the underlying cause, exactly
the first t emitted records were written, and no retry and no further
write happens. -/
theorem C8_sink_failure (discr : PointIdDiscriminator) (self qnode : Node)
    (r : ℚ) (dim : ℕ) (sink : ℕ → Option String) (t : ℕ) (cause : String)
    (hok : ∀ m, m < t → sink m = none) (ht : sink t = some cause)
    (hlt : t < (bruteAllRange discr self qnode r dim).length) :
    (findAllNearestRange discr self qnode r dim sink).1
        = (bruteAllRange discr self qnode r dim).take t
    ∧ (findAllNearestRange discr self qnode r dim sink).2.1
        = some ("Error while writing range nearest neighbors: " ++ cause)
    ∧ (findAllNearestRange discr self qnode r dim (fun _ => none)).1
        = bruteAllRange discr self qnode r dim := by
  have hlt' : t < (((List.range qnode.num_of_points).map
      (rangeRecords discr self qnode r dim)).flatten).length := by
    rw [← bruteAllRange_eq_flatten]
    exact hlt
  refine ⟨?_, ?_, ?_⟩
  · simp only [findAllNearestRange]
    rw [rangeFold_fail discr self qnode r dim sink t cause hok ht
        qnode.num_of_points, if_pos hlt', bruteAllRange_eq_flatten]
  · simp only [findAllNearestRange]
    rw [rangeFold_fail discr self qnode r dim sink t cause hok ht
        qnode.num_of_points, if_pos hlt']
  · simp only [findAllNearestRange]
    rw [rangeFold_ok discr self qnode r dim qnode.num_of_points,
      bruteAllRange_eq_flatten]

/-- Witness for C8: the two-point self-query whose second append fails
with `disk full`. -/
theorem C8_sink_failure_witness :
    (∀ m, m < 1 → sinkFail1 m = none)
    ∧ sinkFail1 1 = some "disk full"
    ∧ 1 < (bruteAllRange eqD nd2 nd2 5 1).length
    ∧ ((findAllNearestRange eqD nd2 nd2 5 1 sinkFail1).1
        = (bruteAllRange eqD nd2 nd2 5 1).take 1
    ∧ (findAllNearestRange eqD nd2 nd2 5 1 sinkFail1).2.1
        = some ("Error while writing range nearest neighbors: " ++ "disk full")
    ∧ (findAllNearestRange eqD nd2 nd2 5 1 (fun _ => none)).1
        = bruteAllRange eqD nd2 nd2 5 1) :=
  ⟨fun m hm => by
      have hm0 : m = 0 := by omega
      rw [hm0]
      rfl,
   rfl, by with_unfolding_all decide,
   C8_sink_failure eqD nd2 nd2 5 1 sinkFail1 1 "disk full"
     (fun m hm => by
        have hm0 : m = 0 := by omega
        rw [hm0]
        rfl)
     rfl (by with_unfolding_all decide)⟩
